import Mathlib

/-!
# Verification of the code-doc-assistant ingestion and query subsystems

This file gives a shallow embedding, in Lean 4, of the parts of the
`code-doc-assistant` backend that the specification's claims are about:

* the secret detector and redactor of `backend/app/core/security.py`
  (`SecretDetector.PATTERNS`, `SecretDetector.redact`), including a faithful
  executable model of the greedy regular-expression matching the Python `re`
  module performs on those concrete patterns (all of them are sequences of
  literals, character classes and a single alternation group, so a
  backtracking matcher over class atoms reproduces `re`'s leftmost/greedy
  semantics for them; character classes are modelled over the ASCII range the
  patterns are written in);
* the code chunker of `backend/app/utils/chunking.py`
  (`CodeChunker._create_class_chunks`, `CodeChunker._truncate_content`);
* the vector-store adapter of `backend/app/services/vector_store.py`
  (`VectorStore.add_chunks`);
* the retrieval dispatch of `backend/app/services/retrieval_service.py`
  (`RetrievalService.retrieve_code` top-k handling);
* the ingestion workflow's status writes
  (`backend/app/workflows/ingestion_workflow.py`, `IngestionWorkflow.run`
  and `_update_status`);
* the Redis session store of `backend/app/services/redis_session_store.py`
  (`create_session`, `add_message`, `save_conversation_turn`,
  `delete_session`), modelled as explicit state on the three Redis keys of
  one session;
* the chat SSE endpoint of `backend/app/api/v1/chat.py`
  (`event_generator` and `_error_stream`).

Python strings are modelled as `List Char`; machine integers as `Int`/`Nat`
(no overflow is reachable in the modelled code paths); floating-point
progress values as `ℚ` (only equality of decimal literals matters).
-/

/-- Python strings are modelled as lists of characters. -/
abbrev Str := List Char

namespace PyStr

/-- `content.split("\n")`: split a string at every `'\n'`.  Like Python's
`str.split` with an explicit separator, this always returns at least one
(possibly empty) segment. -/
def splitNl : Str → List Str
  | [] => [[]]
  | c :: rest =>
    if c = '\n' then [] :: splitNl rest
    else
      match splitNl rest with
      | [] => [[c]]
      | l :: ls => (c :: l) :: ls

/-- `"\n".join(lines)`: interleave the segments with `'\n'`. -/
def joinNl : List Str → Str
  | [] => []
  | [l] => l
  | l :: ls => l ++ '\n' :: joinNl ls

/-- The characters Python's `str.splitlines` treats as line boundaries. -/
def isLineBreak (c : Char) : Bool :=
  c = '\n' || c = '\r' || c = '\x0b' || c = '\x0c' ||
  c = '\x1c' || c = '\x1d' || c = '\x1e' || c = '\x85' ||
  c = '\u2028' || c = '\u2029'

/-- Python's `str.splitlines()`: split at line-break characters, treating
`"\r\n"` as a single break and emitting no trailing empty line when the
string ends in a break. -/
def pySplitlines : Str → List Str
  | [] => []
  | '\r' :: '\n' :: rest => [] :: pySplitlines rest
  | c :: rest =>
    if isLineBreak c then [] :: pySplitlines rest
    else
      match pySplitlines rest with
      | [] => [[c]]
      | l :: ls => (c :: l) :: ls

/-- One step of Python's `str.replace`: scan left to right, replacing
non-overlapping occurrences of `needle` by `repl`.  The fuel argument
bounds the recursion; `replaceAll` supplies enough fuel for the whole
input. -/
def replaceAllAux (needle repl : Str) : Nat → Str → Str
  | 0, s => s
  | _ + 1, [] => []
  | fuel + 1, c :: rest =>
    if needle.isPrefixOf (c :: rest) then
      repl ++ replaceAllAux needle repl fuel ((c :: rest).drop needle.length)
    else
      c :: replaceAllAux needle repl fuel rest

/-- Python's `s.replace(needle, repl)` for a non-empty `needle` (the redactor
only ever replaces non-empty regex matches). -/
def replaceAll (s needle repl : Str) : Str :=
  if needle.isEmpty then s else replaceAllAux needle repl s.length s

/-- Python's `s.rfind(c)`: index of the last occurrence of `c`, or `-1`. -/
def pyRfind (s : Str) (c : Char) : Int :=
  (s.foldl (fun (p : Int × Int) ch => (p.1 + 1, if ch = c then p.1 else p.2))
    ((0 : Int), (-1 : Int))).2

end PyStr

/-! ## A backtracking matcher for the secret-detection regexes

Every pattern in `SecretDetector.PATTERNS` is a sequence of character-class
atoms with greedy counted repetition (`x`, `x?`, `x+`, `x{n}`, `x{n,}`),
possibly under one top-level alternation (which we expand into an ordered
list of alternative atom sequences, preserving Python's backtracking order).
A backtracking matcher over such atoms computes exactly the match `re`
would: alternatives are tried in order, each greedy atom first consumes as
many characters as it can and backtracks one at a time. -/

namespace Rx

/-- One regex atom: a character class repeated greedily between `lo` and
`hi` times (`hi = none` means unbounded). -/
structure Atom where
  pred : Char → Bool
  lo : Nat
  hi : Option Nat

/-- Length of the longest prefix of `s` whose characters satisfy `p`,
capped at `hi` when a bound is given. -/
def runCap (p : Char → Bool) (hi : Option Nat) : Str → Nat
  | [] => 0
  | c :: rest =>
    if hi = some 0 then 0
    else if p c then runCap p (hi.map (· - 1)) rest + 1
    else 0

/-- Greedy backtracking over one atom: try consuming `lo + n, lo + n - 1,
…, lo` characters, running the continuation `k` on the remainder, and
return the first success (so the longest count is tried first). -/
def tryCounts (k : Str → Option Str) (s : Str) (lo : Nat) : Nat → Option Str
  | 0 => k (s.drop lo)
  | n + 1 =>
    match k (s.drop (lo + n + 1)) with
    | some r => some r
    | none => tryCounts k s lo n

/-- Match a sequence of atoms against a prefix of `s`, returning the
remainder of `s` after the first (Python-order) match.  The greedy atom
tries `runCap` characters first and backtracks down to its minimum. -/
def matchAtoms : List Atom → Str → Option Str
  | [], s => some s
  | a :: rest, s =>
    let mx := runCap a.pred a.hi s
    if mx < a.lo then none
    else tryCounts (matchAtoms rest) s a.lo (mx - a.lo)

/-- A pattern: an ordered list of alternative atom sequences. -/
def Pat := List (List Atom)

/-- Match a pattern at the start of `s`, returning the length of the first
match in Python's backtracking order. -/
def matchPat (pat : Pat) (s : Str) : Option Nat :=
  match pat with
  | [] => none
  | alt :: alts =>
    match matchAtoms alt s with
    | some rest => some (s.length - rest.length)
    | none => matchPat alts s

/-- `re.finditer`: scan left to right, recording each non-overlapping match
as `(start, matched text)` and resuming after its end.  The fuel starts at
`s.length + 1` and bounds the scan. -/
def findIterAux (pat : Pat) (s : Str) : Nat → Nat → List (Nat × Str)
  | 0, _ => []
  | fuel + 1, pos =>
    if pos > s.length then []
    else
      match matchPat pat (s.drop pos) with
      | some len =>
        if len = 0 then findIterAux pat s fuel (pos + 1)
        else (pos, (s.drop pos).take len) :: findIterAux pat s fuel (pos + len)
      | none => findIterAux pat s fuel (pos + 1)

/-- All matches of `pat` in `s`, as `(start, matched text)` pairs. -/
def findIter (pat : Pat) (s : Str) : List (Nat × Str) :=
  findIterAux pat s (s.length + 1) 0

end Rx

/-! ## `SecretDetector` (`backend/app/core/security.py`)

The eight patterns of `SecretDetector.PATTERNS`, compiled with
`re.IGNORECASE`, and the redactor `SecretDetector.redact`.  Character
classes carry the `IGNORECASE` flag baked in (`[0-9A-Z]` also matches
lowercase letters under that flag); literal letters match
case-insensitively. -/

namespace SecretDetector

/-- A literal pattern character under `re.IGNORECASE`. -/
def lit (c : Char) : Rx.Atom := ⟨fun x => x.toLower = c.toLower, 1, some 1⟩

/-- A case-insensitive literal string, one atom per character. -/
def lits (s : String) : List Rx.Atom := s.data.map lit

/-- A character class repeated between `lo` and `hi` times. -/
def cls (p : Char → Bool) (lo : Nat) (hi : Option Nat) : Rx.Atom := ⟨p, lo, hi⟩

/-- Python's `\s` (ASCII range). -/
def isPySpace (c : Char) : Bool :=
  c = ' ' || c = '\t' || c = '\n' || c = '\r' || c = '\x0b' || c = '\x0c'

/-- The class `["\']`. -/
def isQuote (c : Char) : Bool := c = '"' || c = '\''

/-- `[A-Za-z0-9_-]` (JWT segments and API-key values). -/
def isWordDash (c : Char) : Bool := c.isAlphanum || c = '_' || c = '-'

/-- `[a-zA-Z0-9_\-\.]` (bearer-token values). -/
def isWordDashDot (c : Char) : Bool := isWordDash c || c = '.'

/-- `AKIA[0-9A-Z]{16}` (under `IGNORECASE`, `[0-9A-Z]` also matches
lowercase letters). -/
def awsPat : Rx.Pat :=
  [lits "AKIA" ++ [cls (fun c => c.isDigit || c.isAlpha) 16 (some 16)]]

/-- `ghp_[a-zA-Z0-9]{36}` -/
def githubPat : Rx.Pat :=
  [lits "ghp_" ++ [cls Char.isAlphanum 36 (some 36)]]

/-- `eyJ[A-Za-z0-9_-]+\.[A-Za-z0-9_-]+\.[A-Za-z0-9_-]+` -/
def jwtPat : Rx.Pat :=
  [lits "eyJ" ++
    [cls isWordDash 1 none, lit '.', cls isWordDash 1 none, lit '.',
     cls isWordDash 1 none]]

/-- `://[^:\s]+:[^@\s]+@` -/
def basicAuthPat : Rx.Pat :=
  [lits "://" ++
    [cls (fun c => !(c = ':') && !(isPySpace c)) 1 none, lit ':',
     cls (fun c => !(c = '@') && !(isPySpace c)) 1 none, lit '@']]

/-- `password\s*=\s*["\']([^"\']+)["\']` -/
def passwordPat : Rx.Pat :=
  [lits "password" ++
    [cls isPySpace 0 none, lit '=', cls isPySpace 0 none,
     cls isQuote 1 (some 1), cls (fun c => !(isQuote c)) 1 none,
     cls isQuote 1 (some 1)]]

/-- The tail of the `API_KEY` pattern after the keyword group:
`["\']?\s*[:=]\s*["\']([a-zA-Z0-9_\-]{20,})["\']`. -/
def apiKeyPost : List Rx.Atom :=
  [cls isQuote 0 (some 1), cls isPySpace 0 none,
   cls (fun c => c = ':' || c = '=') 1 (some 1), cls isPySpace 0 none,
   cls isQuote 1 (some 1), cls isWordDash 20 none, cls isQuote 1 (some 1)]

/-- `["\']?(api[_-]?key|token|secret)["\']?\s*[:=]\s*["\']([a-zA-Z0-9_\-]{20,})["\']`.
The leading optional quote and the keyword alternation are expanded into six
alternatives in Python's backtracking order (quote consumed first, then each
keyword alternative; then the same without the quote). -/
def apiKeyPat : Rx.Pat :=
  let g1 := lits "api" ++ [cls (fun c => c = '_' || c = '-') 0 (some 1)] ++ lits "key"
  let g2 := lits "token"
  let g3 := lits "secret"
  let q := cls isQuote 1 (some 1)
  [q :: g1 ++ apiKeyPost, q :: g2 ++ apiKeyPost, q :: g3 ++ apiKeyPost,
   g1 ++ apiKeyPost, g2 ++ apiKeyPost, g3 ++ apiKeyPost]

/-- `-----BEGIN [A-Z]+ PRIVATE KEY-----` (under `IGNORECASE`, `[A-Z]`
also matches lowercase). -/
def privateKeyPat : Rx.Pat :=
  [lits "-----BEGIN " ++ [cls Char.isAlpha 1 none] ++ lits " PRIVATE KEY-----"]

/-- `["\']?Bearer ["\']?([a-zA-Z0-9_\-\.]{20,})`, with the leading optional
quote expanded into two ordered alternatives. -/
def bearerPat : Rx.Pat :=
  let core := lits "Bearer " ++ [cls isQuote 0 (some 1), cls isWordDashDot 20 none]
  [cls isQuote 1 (some 1) :: core, core]

/-- `SecretDetector.PATTERNS`, in source (dict) order. -/
def secretPatterns : List (String × Rx.Pat) :=
  [("AWS_API_KEY", awsPat), ("GITHUB_TOKEN", githubPat),
   ("JWT_TOKEN", jwtPat), ("BASIC_AUTH", basicAuthPat),
   ("PASSWORD_ASSIGNMENT", passwordPat), ("API_KEY", apiKeyPat),
   ("PRIVATE_KEY", privateKeyPat), ("BEARER_TOKEN", bearerPat)]

/-- `f"[REDACTED_{pattern_name}]"` -/
def placeholder (name : String) : Str := ("[REDACTED_" ++ name ++ "]").data

/-- One line of `SecretDetector.redact`: for each pattern (in order), find
all matches on the *original* line and replace each matched text in the
evolving line (Python `str.replace`, which replaces every occurrence).
Returns the redacted line and the number of detections recorded. -/
def redactLine (line : Str) : Str × Nat :=
  secretPatterns.foldl
    (fun acc np =>
      let ms := Rx.findIter np.2 line
      (ms.foldl (fun r m => PyStr.replaceAll r m.2 (placeholder np.1)) acc.1,
       acc.2 + ms.length))
    (line, 0)

/-- `SecretDetector.redact`: split on `'\n'`, redact each line, join with
`'\n'`; the second component is the total detection count
(`scan_result.secret_count`). -/
def redact (content : Str) : Str × Nat :=
  let results := (PyStr.splitNl content).map redactLine
  (PyStr.joinNl (results.map Prod.fst), (results.map Prod.snd).sum)

end SecretDetector

/-! ## `CodeChunker` (`backend/app/utils/chunking.py`)

`_create_class_chunks` and `_truncate_content`.  The `try/except` wrapper
of `_create_class_chunks` is not modelled: none of the operations in its
body can raise on the modelled data. -/

namespace CodeChunker

/-- The class metadata the parser hands to `_create_class_chunks`
(`cls["line_start"]`, `cls["line_end"]`, `cls.get("name")`). -/
structure ClsMeta where
  lineStart : Nat
  lineEnd : Nat
  name : Option String
deriving DecidableEq

/-- The fields of an emitted class chunk that the claims are about.
`truncated = true` models `metadata={"truncated": True}` on the chunk. -/
structure ClassChunk where
  content : Str
  lineStart : Nat
  lineEnd : Nat
  name : Option String
  truncated : Bool
deriving DecidableEq

/-- `CodeChunker._truncate_content`: hard-truncate to `max_tokens * 4`
characters, move the cut back to the last newline only when that newline
lies past the midpoint of the window, then append the truncation tail. -/
def truncateContent (content : Str) (maxTokens : Nat) : Str :=
  let maxChars := maxTokens * 4
  if content.length ≤ maxChars then content
  else
    let truncated := content.take maxChars
    let lastNewline := PyStr.pyRfind truncated '\n'
    let truncated :=
      if lastNewline > (maxChars / 2 : Int) then content.take lastNewline.toNat
      else truncated
    truncated ++ "\n# ... (truncated)".data

/-- The class text `_create_class_chunks` extracts:
`"\n".join(lines[max(0, line_start - 1) : min(len(lines), line_end)])`
(`Nat` subtraction gives the `max(0, ·)`). -/
def classContent (cls : ClsMeta) (fullContent : Str) : Str :=
  let lines := PyStr.splitNl fullContent
  let a := cls.lineStart - 1
  let b := min lines.length cls.lineEnd
  PyStr.joinNl ((lines.drop a).take (b - a))

/-- `CodeChunker._create_class_chunks`: one untruncated chunk when the
token estimate (`len(content) // 4`) is at most `max_tokens`, otherwise one
truncated chunk. -/
def createClassChunks (cls : ClsMeta) (fullContent : Str) (maxTokens : Nat) :
    List ClassChunk :=
  let content := classContent cls fullContent
  let estimatedTokens := content.length / 4
  if estimatedTokens ≤ maxTokens then
    [⟨content, cls.lineStart, cls.lineEnd, cls.name, false⟩]
  else
    [⟨truncateContent content maxTokens, cls.lineStart, cls.lineEnd, cls.name, true⟩]

/-- Modelled from the spec's words, for comparison with the code: "a single
truncated chunk …, truncation at the last newline inside `max-tokens × 4`
bytes, with a `# … (truncated)` tail". -/
def specTruncatedContent (content : Str) (maxTokens : Nat) : Str :=
  let window := content.take (maxTokens * 4)
  content.take (PyStr.pyRfind window '\n').toNat ++ "\n# ... (truncated)".data

end CodeChunker

/-! ## `VectorStore.add_chunks` (`backend/app/services/vector_store.py`)

The adapter prepares `ids`, `documents` and `metadatas` from the chunk
batch and adds them to the collection.  Its docstring promises
`ValueError: If any chunk is missing embeddings`, but no code path checks
the `embedding` field; the result type records that the operation could
reject a batch, and the definition shows it never does. -/

namespace VectorStore

/-- The chunk record handed to `add_chunks` (UUIDs as `Nat`, embedding
vectors as optional rational vectors; their numeric content is never
inspected). -/
structure CodeChunk where
  id : Nat
  codebaseId : Nat
  filePath : String
  lineStart : Nat
  lineEnd : Nat
  content : Str
  language : String
  chunkType : String
  name : Option String
  parentClass : Option String
  embedding : Option (List ℚ)
deriving DecidableEq

/-- One entry of the collection after `collection.add`: the id, the
document (chunk content) and the metadata dict built in `add_chunks`
(`name` and `parent_class` default to `""`). -/
structure StoredChunk where
  id : Nat
  document : Str
  codebaseId : Nat
  filePath : String
  lineStart : Nat
  lineEnd : Nat
  language : String
  chunkType : String
  name : String
  parentClass : String
deriving DecidableEq

/-- The id/document/metadata triple `add_chunks` builds for one chunk. -/
def toStored (c : CodeChunk) : StoredChunk :=
  ⟨c.id, c.content, c.codebaseId, c.filePath, c.lineStart, c.lineEnd,
   c.language, c.chunkType, c.name.getD "", c.parentClass.getD ""⟩

/-- `VectorStore.add_chunks`: an empty batch logs a warning and returns;
otherwise every chunk in the batch is added to the collection.  No check
of `chunk.embedding` is performed anywhere on the path. -/
def addChunks (chunks : List CodeChunk) (st : List StoredChunk) :
    Except String (List StoredChunk) :=
  if chunks.isEmpty then .ok st
  else .ok (st ++ chunks.map toStored)

end VectorStore

/-! ## `RetrievalService.retrieve_code` top-k handling
(`backend/app/services/retrieval_service.py`) -/

namespace RetrievalService

/-- `settings.default_top_k_results` (config default). -/
def defaultTopKResults : Int := 5

/-- `settings.max_top_k_results` (config default). -/
def maxTopKResults : Int := 20

/-- The `top_k` value `retrieve_code` passes to `vector_store.query`:
`None` is replaced by the default, then `top_k = min(top_k, max)`. -/
def dispatchedTopK (topK : Option Int) : Int :=
  let k := match topK with
    | none => defaultTopKResults
    | some k => k
  min k maxTopKResults

/-- Modelled from the spec's words, for comparison with the code:
"requested `top_k` is clamped to `[1, max_top_k]`". -/
def specClampTopK (k : Int) : Int := max 1 (min k maxTopKResults)

end RetrievalService

/-! ## `IngestionWorkflow` status writes
(`backend/app/workflows/ingestion_workflow.py`)

Each call to `_update_status` overwrites the workflow's mutable
`IngestionStatus` record (and mirrors it to the database through the
`update_codebase_status_activity`); the model records the sequence of those
writes on a run in which every activity succeeds.  The numeric results of
the activities (`files_total`, `supported_files`, `chunks_created`) are
parameters.  Progress values are exact decimals, modelled in `ℚ`. -/

namespace IngestionWorkflow

/-- One write of the workflow's status record (the fields the claims are
about). -/
structure StatusWrite where
  step : String
  progress : ℚ
  filesProcessed : Nat
  filesTotal : Nat
  chunksCreated : Nat
deriving DecidableEq

/-- The ordered sequence of `_update_status` writes performed by
`IngestionWorkflow.run` on a successful run: 0.05 and 0.1 while
validating, 0.15 extracting, 0.35 and 0.5 parsing, 0.5 and 0.6 scanning
secrets, then 1.0 completed.  Embedding and indexing happen inside the
`parse_codebase` activity, and the run writes no separate status for
them. -/
def runStatusWrites (filesTotal filesProcessed chunksCount : Nat) :
    List StatusWrite :=
  [⟨"validating", 0.05, 0, 0, 0⟩,
   ⟨"validating", 0.1, 0, 0, 0⟩,
   ⟨"extracting", 0.15, 0, 0, 0⟩,
   ⟨"parsing", 0.35, 0, filesTotal, 0⟩,
   ⟨"parsing", 0.5, filesProcessed, filesTotal, chunksCount⟩,
   ⟨"scanning_secrets", 0.5, filesProcessed, filesTotal, chunksCount⟩,
   ⟨"scanning_secrets", 0.6, filesProcessed, filesTotal, chunksCount⟩,
   ⟨"completed", 1.0, filesProcessed, filesTotal, chunksCount⟩]

/-- The progress points the spec lists for the stages, in order
(validate, acquire, parse end, secret-scan, embed, index). -/
def specProgressPoints : List ℚ := [0.1, 0.15, 0.5, 0.6, 0.9, 1.0]

end IngestionWorkflow

/-! ## `RedisSessionStore` (`backend/app/services/redis_session_store.py`)

State of the three Redis keys of one session — the hash
`session:<uuid>` (its `message_count` field), the list
`session:<uuid>:messages` and the set `codebase:<uuid>:sessions` — with
each key's TTL tracked alongside it (`none` = the key carries no TTL).
The operations are direct translations of the Redis pipelines in
`create_session`, `add_message`, `save_conversation_turn` and
`delete_session`. -/

namespace RedisSessionStore

/-- `settings.redis_ttl_seconds` (config default: 7 days). -/
def redisTtlSeconds : Nat := 604800

/-- State of one session's keys.  `hashVal` is the `message_count` field
of the session hash (`none` = hash key absent); `messages` is the message
list, newest first (`none` = list key absent); `indexMembers` is the
codebase's session-id set. -/
structure SessState where
  hashVal : Option Nat
  hashTtl : Option Nat
  messages : Option (List String)
  messagesTtl : Option Nat
  indexMembers : List String
  indexTtl : Option Nat
deriving DecidableEq

/-- No keys present. -/
def emptyState : SessState := ⟨none, none, none, none, [], none⟩

/-- `create_session`'s pipeline: `hset session:<id> (message_count "0" …)`,
`expire session:<id> ttl`, `sadd codebase:<cb>:sessions id`.  Neither the
messages key nor the index key is touched by `expire`. -/
def createSession (sid : String) (st : SessState) : SessState :=
  { st with
    hashVal := some 0,
    hashTtl := some redisTtlSeconds,
    indexMembers :=
      if sid ∈ st.indexMembers then st.indexMembers
      else st.indexMembers ++ [sid] }

/-- `add_message`'s pipeline: `lpush session:<id>:messages msg` (creating
the list key if absent), `hincrby session:<id> message_count 1` (creating
the hash field at 1 if absent), `hset session:<id> last_active now`,
`expire session:<id> ttl`.  Only the hash key's TTL is set. -/
def addMessage (msg : String) (st : SessState) : SessState :=
  { st with
    messages := some (msg :: st.messages.getD []),
    hashVal := some (st.hashVal.getD 0 + 1),
    hashTtl := some redisTtlSeconds }

/-- `save_conversation_turn`: `add_message` for the user query, then
`add_message` for the assistant response. -/
def saveConversationTurn (query response : String) (st : SessState) : SessState :=
  addMessage response (addMessage query st)

/-- `delete_session`: when `get_session` finds the hash, delete the hash
and the message list and `srem` the id from the codebase index; otherwise
return with no change. -/
def deleteSession (sid : String) (st : SessState) : SessState :=
  if st.hashVal.isSome then
    { hashVal := none, hashTtl := none, messages := none, messagesTtl := none,
      indexMembers := st.indexMembers.filter (· ≠ sid), indexTtl := st.indexTtl }
  else st

/-- The session-store operations the message-count claim ranges over. -/
inductive SessOp
  | addMessage (msg : String)
  | saveTurn (query response : String)
  | deleteSession

/-- Apply one operation. -/
def applyOp (sid : String) (st : SessState) : SessOp → SessState
  | .addMessage m => addMessage m st
  | .saveTurn q r => saveConversationTurn q r st
  | .deleteSession => deleteSession sid st

/-- Apply a sequence of operations in order. -/
def applyOps (sid : String) (ops : List SessOp) (st : SessState) : SessState :=
  ops.foldl (applyOp sid) st

/-- The observed-equality invariant: when the session hash exists, its
`message_count` equals the number of stored messages; when it does not,
no messages are stored. -/
def countInv (st : SessState) : Prop :=
  match st.hashVal with
  | some k => k = (st.messages.getD []).length
  | none => st.messages.getD [] = []

end RedisSessionStore

/-! ## Chat SSE streams (`backend/app/api/v1/chat.py`)

`event_generator` (success path) and `_error_stream` (pipeline-error
path); `for chunk in final_state.response` iterates the response string
character by character. -/

namespace ChatApi

/-- One server-sent event, by type. -/
inductive SSEEvent
  | sessionId (sid : String)
  | chunk (content : Str)
  | sources (filePaths : List String)
  | validation
  | done
  | error (msg : String) (errorType : Option String) (recovery : Option String)
deriving DecidableEq

/-- The final agent state fields the endpoint streams from.
`validationResults` models the truthiness of the `validation_results`
dict; `errorMetadata` carries `(error_type, recovery_suggestion)`. -/
structure FinalState where
  sessionId : String
  response : Str
  sources : List String
  validationResults : Bool
  error : Option String
  errorMetadata : Option (String × String)

/-- `event_generator`: the session-id event, one chunk event per character
of the response, the sources event when sources are non-empty, the
validation event when validation results are non-empty, then done. -/
def eventGenerator (st : FinalState) : List SSEEvent :=
  SSEEvent.sessionId st.sessionId ::
    (st.response.map (fun c => SSEEvent.chunk [c]) ++
     (if st.sources.isEmpty then [] else [SSEEvent.sources st.sources]) ++
     (if st.validationResults then [SSEEvent.validation] else []) ++
     [SSEEvent.done])

/-- `_error_stream`: an error event, then done. -/
def errorStream (msg : String) (md : Option (String × String)) : List SSEEvent :=
  [SSEEvent.error msg (md.map Prod.fst) (md.map Prod.snd), SSEEvent.done]

/-- The stream the `chat` endpoint returns: `_error_stream` when the final
state carries an error, `event_generator` otherwise. -/
def chatStream (st : FinalState) : List SSEEvent :=
  match st.error with
  | some e => errorStream e st.errorMetadata
  | none => eventGenerator st

/-- The content of a chunk event. -/
def chunkContent : SSEEvent → Option Str
  | .chunk c => some c
  | _ => none

/-- Whether an event is a session-id event. -/
def isSessionIdEvt : SSEEvent → Bool
  | .sessionId _ => true
  | _ => false

end ChatApi

/-! ## Concrete inputs used by counterexamples and witnesses -/

namespace Examples

/-- A chunk whose `embedding` field is `None`, exactly as
`CodebaseProcessor.process_codebase` builds them (`embedding=None,  # Will
be set in batch`). -/
def chunkNoEmbedding : VectorStore.CodeChunk :=
  ⟨1, 7, "main.py", 1, 4, "def hello_world(): return 42".data, "python",
   "function", some "hello_world", none, none⟩

/-- The secret-scan scenario input from the spec:
`AWS_KEY=AKIA1234567890ABCDEF\n`. -/
def awsInput : Str := "AWS_KEY=AKIA1234567890ABCDEF\n".data

/-- A password assignment whose quoted value contains a carriage return. -/
def crInput : Str := "password=\"a\rb\"".data

/-- Twenty `'a'` characters. -/
def a20 : Str := List.replicate 20 'a'

/-- Twenty `'c'` characters. -/
def c20 : Str := List.replicate 20 'c'

/-- A line on which the bearer-token pattern matches twice, with the text
of the first match reoccurring inside the second match's span and running
past its end into unmatched territory. -/
def bearerInput : Str :=
  "Bearer ".data ++ a20 ++ " Bearer ".data ++ c20 ++ "Bearer ".data ++ a20

/-- A class whose only newline sits near the start: two lines, the second
4200 characters long. -/
def bigClassFull : Str := "class A:\n".data ++ List.replicate 4200 'x'

/-- Metadata for the two-line class of `bigClassFull`. -/
def bigClassMeta : CodeChunker.ClsMeta := ⟨1, 2, some "A"⟩

/-- A class whose last newline inside the truncation window sits past the
window midpoint: a 3000-character line followed by a 1200-character line. -/
def lateNlFull : Str := List.replicate 3000 'y' ++ '\n' :: List.replicate 1200 'z'

/-- Metadata for the two-line class of `lateNlFull`. -/
def lateNlMeta : CodeChunker.ClsMeta := ⟨1, 2, some "B"⟩

/-- A small one-line class, well under the token bound. -/
def smallClassFull : Str := "class S: pass".data

/-- Metadata for the one-line class of `smallClassFull`. -/
def smallClassMeta : CodeChunker.ClsMeta := ⟨1, 1, some "S"⟩

/-- Session state after creating session `"s1"` and appending one message,
starting from no keys. -/
def sessAfterOneMessage : RedisSessionStore.SessState :=
  RedisSessionStore.addMessage "hello"
    (RedisSessionStore.createSession "s1" RedisSessionStore.emptyState)

/-- A final agent state on which the pipeline succeeded. -/
def stateOk : ChatApi.FinalState :=
  ⟨"sid-1", "Hi".data, ["auth.py"], true, none, none⟩

/-- A final agent state on which the pipeline failed. -/
def stateErr : ChatApi.FinalState :=
  ⟨"sid-2", [], [], false, some "boom", none⟩

end Examples

/-! ## Helper lemmas -/

/-- Flattening a list of singletons gives back the list. -/
theorem flatten_map_singleton {α : Type} (l : List α) :
    (l.map (fun c => [c])).flatten = l := by
  induction l with
  | nil => rfl
  | cons c rest ih => simp [ih]

/-! ## C1 — vector-index `add` and missing embeddings -/

/-- C1 (code_bug): `VectorStore.add_chunks` accepts and stores a chunk
whose `embedding` field is `None`, contradicting its own docstring
("Raises ValueError: If any chunk is missing embeddings") and the spec;
`process_codebase` passes exactly such chunks to it. -/
theorem vectorStore_add_accepts_missing_embedding :
    Examples.chunkNoEmbedding.embedding = none ∧
    VectorStore.addChunks [Examples.chunkNoEmbedding] [] =
      Except.ok [VectorStore.toStored Examples.chunkNoEmbedding] :=
  ⟨rfl, rfl⟩

/-! ## C3 — top-k clamping -/

/-- C3 (corrected, counterexample): a requested `top_k = 0` is dispatched
as `0`, not clamped up to `1` as the claim's `[1, max_top_k]` interval
requires. -/
theorem topk_dispatch_counterexample :
    RetrievalService.dispatchedTopK (some 0) = 0 ∧
    RetrievalService.specClampTopK 0 = 1 ∧
    RetrievalService.dispatchedTopK (some 0) ≠ RetrievalService.specClampTopK 0 := by
  refine ⟨rfl, rfl, ?_⟩
  decide

/-- C3 (corrected, amended): `retrieve_code` caps the requested `top_k`
from above at `max_top_k_results` (default 20) and substitutes the default
(5) for a missing value, but applies no lower clamp: `top_k = 0` is
dispatched unchanged as `0`, while `top_k = 1_000_000` is capped to 20. -/
theorem topk_dispatch_amended (k : Int) :
    RetrievalService.dispatchedTopK (some k) = min k 20 ∧
    RetrievalService.dispatchedTopK none = 5 ∧
    RetrievalService.dispatchedTopK (some 0) = 0 ∧
    RetrievalService.dispatchedTopK (some 1000000) = 20 :=
  ⟨rfl, rfl, rfl, rfl⟩

/-! ## C4 — ingestion progress points -/

/-- C4 (corrected, counterexample): the spec's progress-point sequence
(including the embed point 0.9) is not a subsequence of the progress
values a successful run writes — no write with progress 0.9 exists. -/
theorem ingestion_progress_counterexample :
    ¬ List.Sublist IngestionWorkflow.specProgressPoints
        ((IngestionWorkflow.runStatusWrites 0 0 0).map (fun w => w.progress)) := by
  intro h
  have h9 : (0.9 : ℚ) ∈ (IngestionWorkflow.runStatusWrites 0 0 0).map
      (fun w => w.progress) := by
    refine h.subset ?_
    simp [IngestionWorkflow.specProgressPoints]
  simp [IngestionWorkflow.runStatusWrites] at h9
  norm_num at h9

/-- C4 (corrected, amended): a successful run writes the status record at
progress 0.05, 0.1, 0.15, 0.35, 0.5, 0.5, 0.6, 1.0 in that order; the
points validate 0.1, acquire 0.15, parse-end 0.5, secret-scan 0.6 and
completion 1.0 are attained in order, but no embed point 0.9 is ever
written (embedding and indexing happen inside the parse activity). -/
theorem ingestion_progress_amended (ft fp cc : Nat) :
    ((IngestionWorkflow.runStatusWrites ft fp cc).map (fun w => w.progress)) =
      [0.05, 0.1, 0.15, 0.35, 0.5, 0.5, 0.6, 1.0] ∧
    List.Sublist [(0.1 : ℚ), 0.15, 0.5, 0.6, 1.0]
      ((IngestionWorkflow.runStatusWrites ft fp cc).map (fun w => w.progress)) ∧
    (0.9 : ℚ) ∉ ((IngestionWorkflow.runStatusWrites ft fp cc).map
      (fun w => w.progress)) := by
  refine ⟨rfl, ?_, ?_⟩
  · simp only [IngestionWorkflow.runStatusWrites, List.map]
    exact .cons _ (.cons₂ _ (.cons₂ _ (.cons _ (.cons₂ _ (.cons _
      (.cons₂ _ (.cons₂ _ .slnil)))))))
  · simp [IngestionWorkflow.runStatusWrites]
    norm_num

/-! ## C7 — session-key TTLs -/

/-- C7 (corrected, counterexample): after creating a session and appending
one message, the message-list key exists but carries no TTL, and the
codebase index carries no TTL either — the writes did not refresh a TTL on
all keys of the session. -/
theorem session_ttl_counterexample :
    Examples.sessAfterOneMessage.messages.isSome = true ∧
    Examples.sessAfterOneMessage.messagesTtl = none ∧
    Examples.sessAfterOneMessage.indexMembers ≠ [] ∧
    Examples.sessAfterOneMessage.indexTtl = none := by
  refine ⟨rfl, rfl, ?_, rfl⟩
  decide

/-- C7 (corrected, amended): every session-store write (`create_session`
and `add_message`) sets a TTL equal to the retention period on the session
hash only; the message-list key and the codebase session index are written
without touching their TTLs. -/
theorem session_ttl_amended (st : RedisSessionStore.SessState)
    (sid msg : String) :
    (RedisSessionStore.createSession sid st).hashTtl =
      some RedisSessionStore.redisTtlSeconds ∧
    (RedisSessionStore.createSession sid st).messagesTtl = st.messagesTtl ∧
    (RedisSessionStore.createSession sid st).indexTtl = st.indexTtl ∧
    (RedisSessionStore.addMessage msg st).hashTtl =
      some RedisSessionStore.redisTtlSeconds ∧
    (RedisSessionStore.addMessage msg st).messagesTtl = st.messagesTtl ∧
    (RedisSessionStore.addMessage msg st).indexTtl = st.indexTtl :=
  ⟨rfl, rfl, rfl, rfl, rfl, rfl⟩

/-! ## C8 — message count equals stored messages -/

/-- `add_message` preserves the message-count invariant: both the list
and the counter grow by one (the counter starting from 0 when the hash
field is absent). -/
theorem countInv_addMessage (msg : String) (st : RedisSessionStore.SessState)
    (h : RedisSessionStore.countInv st) :
    RedisSessionStore.countInv (RedisSessionStore.addMessage msg st) := by
  unfold RedisSessionStore.countInv RedisSessionStore.addMessage at *
  cases hv : st.hashVal with
  | none =>
    rw [hv] at h
    simp [hv, h]
  | some k =>
    rw [hv] at h
    simp [hv, h]

/-- Every session-store operation preserves the message-count invariant. -/
theorem countInv_applyOp (sid : String) (st : RedisSessionStore.SessState)
    (op : RedisSessionStore.SessOp) (h : RedisSessionStore.countInv st) :
    RedisSessionStore.countInv (RedisSessionStore.applyOp sid st op) := by
  cases op with
  | addMessage m => exact countInv_addMessage m st h
  | saveTurn q r =>
    exact countInv_addMessage r _ (countInv_addMessage q st h)
  | deleteSession =>
    unfold RedisSessionStore.applyOp RedisSessionStore.deleteSession
    by_cases hv : st.hashVal.isSome
    · simp [hv, RedisSessionStore.countInv]
    · simpa [hv] using h

/-- Sequences of session-store operations preserve the message-count
invariant. -/
theorem countInv_applyOps (sid : String) (ops : List RedisSessionStore.SessOp)
    (st : RedisSessionStore.SessState) (h : RedisSessionStore.countInv st) :
    RedisSessionStore.countInv (RedisSessionStore.applyOps sid ops st) := by
  induction ops generalizing st with
  | nil => exact h
  | cons op rest ih => exact ih _ (countInv_applyOp sid st op h)

/-- C8 (confirmed): a created session starts with `message_count = 0` and
no stored messages, and every sequence of session-store operations
(`add_message`, `save_conversation_turn`, `delete_session`) keeps the
number of stored messages equal to the `message_count` field. -/
theorem session_message_count_invariant (sid : String)
    (ops : List RedisSessionStore.SessOp) :
    (RedisSessionStore.createSession sid RedisSessionStore.emptyState).hashVal
        = some 0 ∧
    ((RedisSessionStore.createSession sid
        RedisSessionStore.emptyState).messages.getD []).length = 0 ∧
    RedisSessionStore.countInv
      (RedisSessionStore.applyOps sid ops
        (RedisSessionStore.createSession sid RedisSessionStore.emptyState)) := by
  refine ⟨rfl, rfl, ?_⟩
  refine countInv_applyOps sid ops _ ?_
  simp [RedisSessionStore.countInv, RedisSessionStore.createSession,
    RedisSessionStore.emptyState]

/-! ## C9 — first SSE event -/

/-- C9 (corrected, counterexample): when the pipeline fails, the chat
response stream begins with an error event, not a session-id event. -/
theorem chat_first_event_counterexample :
    ChatApi.chatStream Examples.stateErr =
      [ChatApi.SSEEvent.error "boom" none none, ChatApi.SSEEvent.done] ∧
    ((ChatApi.chatStream Examples.stateErr).head?.map ChatApi.isSessionIdEvt) =
      some false :=
  ⟨rfl, rfl⟩

/-- C9 (corrected, amended): on the success path the first SSE event is
the session-id event, before any chunk, sources, validation or done
event; when the pipeline fails, the stream is an error event followed by
done, with no session-id event. -/
theorem chat_first_event_amended (st : ChatApi.FinalState) :
    (st.error = none →
      (ChatApi.chatStream st).head? =
        some (ChatApi.SSEEvent.sessionId st.sessionId)) ∧
    (∀ e, st.error = some e →
      ChatApi.chatStream st =
        [ChatApi.SSEEvent.error e (st.errorMetadata.map Prod.fst)
          (st.errorMetadata.map Prod.snd), ChatApi.SSEEvent.done]) := by
  constructor
  · intro h
    simp [ChatApi.chatStream, h, ChatApi.eventGenerator]
  · intro e h
    simp [ChatApi.chatStream, h, ChatApi.errorStream]

/-- C9 witness: the amended theorem applied to a concrete success state
and a concrete failure state. -/
theorem chat_first_event_amended_witness :
    (ChatApi.chatStream Examples.stateOk).head? =
      some (ChatApi.SSEEvent.sessionId "sid-1") ∧
    ChatApi.chatStream Examples.stateErr =
      [ChatApi.SSEEvent.error "boom" none none, ChatApi.SSEEvent.done] :=
  ⟨(chat_first_event_amended Examples.stateOk).1 rfl,
   (chat_first_event_amended Examples.stateErr).2 "boom" rfl⟩

/-! ## C10 — one chunk event per response character -/

/-- C10 (confirmed): the success-path stream carries exactly one chunk
event per character of the generated response, in order: the chunk events
are the response's characters as singleton strings, their number is the
response length, and their concatenation is the response. -/
theorem chat_chunk_events_per_character (st : ChatApi.FinalState) :
    ((ChatApi.eventGenerator st).filterMap ChatApi.chunkContent) =
      st.response.map (fun c => [c]) ∧
    ((ChatApi.eventGenerator st).filterMap ChatApi.chunkContent).length =
      st.response.length ∧
    ((ChatApi.eventGenerator st).filterMap ChatApi.chunkContent).flatten =
      st.response := by
  have hmain : ((ChatApi.eventGenerator st).filterMap ChatApi.chunkContent) =
      st.response.map (fun c => [c]) := by
    unfold ChatApi.eventGenerator
    rw [List.filterMap_cons]
    simp only [ChatApi.chunkContent, List.filterMap_append]
    have h1 : (st.response.map (fun c => ChatApi.SSEEvent.chunk [c])).filterMap
        ChatApi.chunkContent = st.response.map (fun c => [c]) := by
      induction st.response with
      | nil => rfl
      | cons c rest ih => simp [List.filterMap_cons, ChatApi.chunkContent, ih]
    have h2 : ((if st.sources.isEmpty then ([] : List ChatApi.SSEEvent)
        else [ChatApi.SSEEvent.sources st.sources]).filterMap
          ChatApi.chunkContent) = [] := by
      cases st.sources.isEmpty <;> simp [ChatApi.chunkContent]
    have h3 : ((if st.validationResults then [ChatApi.SSEEvent.validation]
        else ([] : List ChatApi.SSEEvent)).filterMap ChatApi.chunkContent) = [] := by
      cases st.validationResults <;> simp [ChatApi.chunkContent]
    rw [h1, h2, h3]
    simp [ChatApi.chunkContent]
  refine ⟨hmain, ?_, ?_⟩
  · rw [hmain, List.length_map]
  · rw [hmain, flatten_map_singleton]

/-! ## C5 helper lemmas — newline structure of the redactor -/

/-- `split("\n")` never returns an empty list. -/
theorem splitNl_ne_nil (s : Str) : PyStr.splitNl s ≠ [] := by
  cases s with
  | nil => simp [PyStr.splitNl]
  | cons c rest =>
    simp only [PyStr.splitNl]
    split
    · simp
    · split <;> simp

/-- No segment of `split("\n")` contains a newline. -/
theorem noNl_of_mem_splitNl (s : Str) :
    ∀ l ∈ PyStr.splitNl s, '\n' ∉ l := by
  induction s with
  | nil =>
    intro l hl
    simp [PyStr.splitNl] at hl
    simp [hl]
  | cons c rest ih =>
    intro l hl
    simp only [PyStr.splitNl] at hl
    by_cases hc : c = '\n'
    · simp only [if_pos hc] at hl
      rcases List.mem_cons.mp hl with h | h
      · simp [h]
      · exact ih l h
    · simp only [if_neg hc] at hl
      rcases hsp : PyStr.splitNl rest with _ | ⟨l', ls⟩
      · exact absurd hsp (splitNl_ne_nil rest)
      · rw [hsp] at hl
        rcases List.mem_cons.mp hl with h | h
        · subst h
          intro hmem
          rcases List.mem_cons.mp hmem with h2 | h2
          · exact hc h2.symm
          · exact ih l' (by rw [hsp]; exact List.mem_cons_self _ _) h2
        · exact ih l (by rw [hsp]; exact List.mem_cons_of_mem _ h)

/-- A newline-free string splits into itself. -/
theorem splitNl_of_noNl (l : Str) (h : '\n' ∉ l) : PyStr.splitNl l = [l] := by
  induction l with
  | nil => rfl
  | cons c rest ih =>
    have hc : ¬ c = '\n' := fun hcc => h (hcc ▸ List.mem_cons_self c rest)
    have hrest : '\n' ∉ rest := fun hm => h (List.mem_cons_of_mem c hm)
    simp only [PyStr.splitNl, if_neg hc, ih hrest]

/-- Splitting a newline-free prefix followed by an explicit newline peels
off the prefix. -/
theorem splitNl_append_newline (l s : Str) (h : '\n' ∉ l) :
    PyStr.splitNl (l ++ '\n' :: s) = l :: PyStr.splitNl s := by
  induction l with
  | nil => simp [PyStr.splitNl]
  | cons c rest ih =>
    have hc : ¬ c = '\n' := fun hcc => h (hcc ▸ List.mem_cons_self c rest)
    have hrest : '\n' ∉ rest := fun hm => h (List.mem_cons_of_mem c hm)
    have h1 : (c :: rest) ++ '\n' :: s = c :: (rest ++ '\n' :: s) := rfl
    rw [h1]
    simp only [PyStr.splitNl, if_neg hc, ih hrest]

/-- `split("\n")` is a left inverse of `"\n".join` on non-empty lists of
newline-free segments. -/
theorem splitNl_joinNl (ls : List Str) (hne : ls ≠ [])
    (h : ∀ l ∈ ls, '\n' ∉ l) : PyStr.splitNl (PyStr.joinNl ls) = ls := by
  induction ls with
  | nil => exact absurd rfl hne
  | cons l rest ih =>
    cases rest with
    | nil =>
      simp only [PyStr.joinNl]
      exact splitNl_of_noNl l (h l (List.mem_cons_self _ _))
    | cons l2 rest2 =>
      have hjoin : PyStr.joinNl (l :: l2 :: rest2) =
          l ++ '\n' :: PyStr.joinNl (l2 :: rest2) := rfl
      rw [hjoin, splitNl_append_newline l _ (h l (List.mem_cons_self _ _)),
        ih (by simp) (fun m hm => h m (List.mem_cons_of_mem _ hm))]

/-- Characters of `replaceAllAux` output come from the input or the
replacement. -/
theorem mem_replaceAllAux (needle repl : Str) (c : Char) :
    ∀ (fuel : Nat) (s : Str), c ∈ PyStr.replaceAllAux needle repl fuel s →
      c ∈ s ∨ c ∈ repl := by
  intro fuel
  induction fuel with
  | zero => intro s hc; exact Or.inl hc
  | succ n ih =>
    intro s hc
    cases s with
    | nil => simp [PyStr.replaceAllAux] at hc
    | cons c' rest =>
      simp only [PyStr.replaceAllAux] at hc
      split at hc
      · rcases List.mem_append.mp hc with h | h
        · exact Or.inr h
        · rcases ih _ h with h2 | h2
          · exact Or.inl (List.drop_subset _ _ h2)
          · exact Or.inr h2
      · rcases List.mem_cons.mp hc with h | h
        · exact Or.inl (h ▸ List.mem_cons_self _ _)
        · rcases ih _ h with h2 | h2
          · exact Or.inl (List.mem_cons_of_mem _ h2)
          · exact Or.inr h2

/-- Characters of `replace` output come from the input or the
replacement. -/
theorem mem_replaceAll (s needle repl : Str) (c : Char)
    (hc : c ∈ PyStr.replaceAll s needle repl) : c ∈ s ∨ c ∈ repl := by
  unfold PyStr.replaceAll at hc
  split at hc
  · exact Or.inl hc
  · exact mem_replaceAllAux needle repl c _ s hc

/-- Folding `replace` over a match list with a newline-free replacement
keeps the accumulator newline-free. -/
theorem noNl_foldl_replace (ph : Str) (hph : '\n' ∉ ph) :
    ∀ (ms : List (Nat × Str)) (r : Str), '\n' ∉ r →
      '\n' ∉ ms.foldl (fun r m => PyStr.replaceAll r m.2 ph) r := by
  intro ms
  induction ms with
  | nil => intro r hr; exact hr
  | cons m rest ih =>
    intro r hr
    refine ih _ (fun hmem => ?_)
    rcases mem_replaceAll _ _ _ _ hmem with h | h
    · exact hr h
    · exact hph h

/-- Every placeholder the redactor substitutes is newline-free. -/
theorem noNl_placeholder :
    ∀ name ∈ SecretDetector.secretPatterns.map Prod.fst,
      '\n' ∉ SecretDetector.placeholder name := by decide

/-- `redactLine` keeps a newline-free line newline-free. -/
theorem noNl_redactLine (line : Str) (h : '\n' ∉ line) :
    '\n' ∉ (SecretDetector.redactLine line).1 := by
  unfold SecretDetector.redactLine
  have main : ∀ (ps : List (String × Rx.Pat)),
      (∀ np ∈ ps, '\n' ∉ SecretDetector.placeholder np.1) →
      ∀ (acc : Str × Nat), '\n' ∉ acc.1 →
        '\n' ∉ (ps.foldl
          (fun acc np =>
            let ms := Rx.findIter np.2 line
            (ms.foldl (fun r m => PyStr.replaceAll r m.2
              (SecretDetector.placeholder np.1)) acc.1,
             acc.2 + ms.length)) acc).1 := by
    intro ps
    induction ps with
    | nil => intro _ acc hacc; exact hacc
    | cons np rest ih =>
      intro hps acc hacc
      refine ih (fun p hp => hps p (List.mem_cons_of_mem _ hp)) _ ?_
      exact noNl_foldl_replace _ (hps np (List.mem_cons_self _ _)) _ _ hacc
  exact main SecretDetector.secretPatterns
    (fun np hnp => noNl_placeholder np.1 (List.mem_map_of_mem Prod.fst hnp))
    (line, 0) h

/-! ## C5 — redaction and line counts -/

set_option maxRecDepth 400000 in
/-- C5 (corrected, counterexample): redacting a password assignment whose
quoted value contains a carriage return changes the `splitlines` count
(the matched secret's `'\r'` is removed, merging two `splitlines` lines);
and on a line where the bearer-token pattern matches twice, the
`str.replace`-based rewrite also destroys bytes outside every matched
span — the suffix from position 61 (one space and twenty `'a'`s) lies
beyond both matches (spans `[0, 27)` and `[28, 61)`; no other pattern
matches), yet it does not survive into the redacted output. -/
theorem redact_content_preserving_counterexample :
    (PyStr.pySplitlines (SecretDetector.redact Examples.crInput).1).length ≠
      (PyStr.pySplitlines Examples.crInput).length ∧
    ((Rx.findIter SecretDetector.bearerPat Examples.bearerInput).map
      (fun m => (m.1, m.2.length))) = [(0, 27), (28, 33)] ∧
    (∀ np ∈ SecretDetector.secretPatterns,
      np.1 = "BEARER_TOKEN" ∨ Rx.findIter np.2 Examples.bearerInput = []) ∧
    Examples.bearerInput.drop 61 = ' ' :: Examples.a20 ∧
    List.IsInfix (' ' :: Examples.a20) Examples.bearerInput ∧
    ¬ List.IsInfix (' ' :: Examples.a20)
      (SecretDetector.redact Examples.bearerInput).1 := by
  decide

/-- C5 (corrected, amended): redaction preserves the number of
`'\n'`-separated lines — `redact(x).split("\n")` has the same length as
`x.split("\n")` for every input (Python `splitlines` counts are not
preserved, and bytes outside matched spans can be lost to the
replace-all rewrite, as the counterexample shows). -/
theorem redact_preserves_newline_count (x : Str) :
    (PyStr.splitNl (SecretDetector.redact x).1).length =
      (PyStr.splitNl x).length := by
  unfold SecretDetector.redact
  have hnn : (PyStr.splitNl x).map (fun l => (SecretDetector.redactLine l).1) ≠ [] := by
    intro h
    exact splitNl_ne_nil x (List.map_eq_nil_iff.mp h)
  have hnoNl : ∀ l ∈ (PyStr.splitNl x).map (fun l => (SecretDetector.redactLine l).1),
      '\n' ∉ l := by
    intro l hl
    rcases List.mem_map.mp hl with ⟨l0, hl0, rfl⟩
    exact noNl_redactLine l0 (noNl_of_mem_splitNl x l0 hl0)
  calc (PyStr.splitNl (PyStr.joinNl (((PyStr.splitNl x).map
          SecretDetector.redactLine).map Prod.fst))).length
      = (PyStr.splitNl (PyStr.joinNl ((PyStr.splitNl x).map
          (fun l => (SecretDetector.redactLine l).1)))).length := by
        rw [List.map_map]; rfl
    _ = ((PyStr.splitNl x).map (fun l => (SecretDetector.redactLine l).1)).length := by
        rw [splitNl_joinNl _ hnn hnoNl]
    _ = (PyStr.splitNl x).length := List.length_map _ _

/-! ## C2 — the AWS-key scenario -/

set_option maxRecDepth 100000 in
/-- C2 (corrected, counterexample): redacting the scenario file content
`AWS_KEY=AKIA1234567890ABCDEF\n` does produce a redaction (one detection),
but the content every chunk would be built from does not contain the
placeholder `[REDACTED_AWS_ACCESS_KEY]` the claim names — the detector's
pattern table calls this pattern `AWS_API_KEY`. -/
theorem redact_aws_scenario_counterexample :
    ¬ List.IsInfix "[REDACTED_AWS_ACCESS_KEY]".data
      (SecretDetector.redact Examples.awsInput).1 ∧
    (SecretDetector.redact Examples.awsInput).2 ≥ 1 := by
  decide

set_option maxRecDepth 100000 in
/-- C2 (corrected, amended): redaction is applied to the file content
before parsing and chunking, and on the scenario input it yields exactly
`AWS_KEY=[REDACTED_AWS_API_KEY]\n` — containing the placeholder
`[REDACTED_AWS_API_KEY]`, not containing the raw key
`AKIA1234567890ABCDEF`, with one secret detected. -/
theorem redact_aws_scenario_amended :
    (SecretDetector.redact Examples.awsInput).1 =
      "AWS_KEY=[REDACTED_AWS_API_KEY]\n".data ∧
    List.IsInfix "[REDACTED_AWS_API_KEY]".data
      (SecretDetector.redact Examples.awsInput).1 ∧
    ¬ List.IsInfix "AKIA1234567890ABCDEF".data
      (SecretDetector.redact Examples.awsInput).1 ∧
    (SecretDetector.redact Examples.awsInput).2 = 1 := by
  refine ⟨by decide, by decide, by decide, by decide⟩

/-! ## C6 helper lemmas — symbolic evaluation of the big-class examples

The 4000-character class bodies are too large to evaluate by `decide`, so
their `split`/`take`/`rfind` values are computed through `replicate`
lemmas, and the chunker's `let`-bindings are exposed by `rfl`-proved
unfolding equations. -/

/-- Unfolding equation for `createClassChunks`. -/
theorem createClassChunks_eq (cls : CodeChunker.ClsMeta) (full : Str)
    (maxTokens : Nat) :
    CodeChunker.createClassChunks cls full maxTokens =
      if (CodeChunker.classContent cls full).length / 4 ≤ maxTokens then
        [⟨CodeChunker.classContent cls full, cls.lineStart, cls.lineEnd,
          cls.name, false⟩]
      else
        [⟨CodeChunker.truncateContent (CodeChunker.classContent cls full)
            maxTokens, cls.lineStart, cls.lineEnd, cls.name, true⟩] := rfl

/-- Unfolding equation for `truncateContent`. -/
theorem truncateContent_eq (content : Str) (maxTokens : Nat) :
    CodeChunker.truncateContent content maxTokens =
      if content.length ≤ maxTokens * 4 then content
      else
        (if PyStr.pyRfind (content.take (maxTokens * 4)) '\n' >
            ((maxTokens * 4 : Nat) : Int) / 2 then
          content.take
            (PyStr.pyRfind (content.take (maxTokens * 4)) '\n').toNat
        else content.take (maxTokens * 4)) ++ "\n# ... (truncated)".data := rfl

/-- Unfolding equation for `specTruncatedContent`. -/
theorem specTruncatedContent_eq (content : Str) (maxTokens : Nat) :
    CodeChunker.specTruncatedContent content maxTokens =
      content.take
        (PyStr.pyRfind (content.take (maxTokens * 4)) '\n').toNat ++
        "\n# ... (truncated)".data := rfl

/-- `rfind`'s fold ignores a suffix that does not contain the needle. -/
theorem pyRfind_foldl_not_mem (c : Char) :
    ∀ (s : Str) (p : Int × Int), c ∉ s →
      s.foldl (fun (p : Int × Int) ch => (p.1 + 1, if ch = c then p.1 else p.2)) p
        = (p.1 + s.length, p.2) := by
  intro s
  induction s with
  | nil => intro p _; simp
  | cons ch rest ih =>
    intro p hmem
    have hch : ¬ ch = c := fun h => hmem (h ▸ List.mem_cons_self _ _)
    have hrest : c ∉ rest := fun h => hmem (List.mem_cons_of_mem _ h)
    simp only [List.foldl_cons, if_neg hch, ih _ hrest, List.length_cons,
      Prod.mk.injEq]
    exact ⟨by push_cast; ring, trivial⟩

/-- The newline character does not occur in a replicated run of another
character. -/
theorem noNl_replicate (n : Nat) (a : Char) (h : ¬ '\n' = a) :
    '\n' ∉ List.replicate n a := by
  simp [List.mem_replicate]
  intro _
  exact h

/-- The two-line class body `bigClassFull` splits into its two lines. -/
theorem bigClassFull_splitNl :
    PyStr.splitNl Examples.bigClassFull =
      ["class A:".data, List.replicate 4200 'x'] := by
  have h1 : Examples.bigClassFull =
      "class A:".data ++ '\n' :: List.replicate 4200 'x' := rfl
  rw [h1, splitNl_append_newline _ _ (by decide),
    splitNl_of_noNl _ (noNl_replicate 4200 'x' (by decide))]

/-- The class text the chunker extracts for `bigClassMeta` is the whole
two-line body. -/
theorem bigClass_content :
    CodeChunker.classContent Examples.bigClassMeta Examples.bigClassFull =
      Examples.bigClassFull := by
  unfold CodeChunker.classContent
  rw [bigClassFull_splitNl]
  rfl

/-- Length of the big class body. -/
theorem bigClassFull_length : Examples.bigClassFull.length = 4209 := by
  have h : Examples.bigClassFull =
      "class A:\n".data ++ List.replicate 4200 'x' := rfl
  rw [h, List.length_append, List.length_replicate]
  rfl

/-- The first 4096 characters of the big class body. -/
theorem bigClassFull_take :
    Examples.bigClassFull.take 4096 =
      "class A:\n".data ++ List.replicate 4087 'x' := by
  have h : Examples.bigClassFull =
      "class A:\n".data ++ List.replicate 4200 'x' := rfl
  rw [h, List.take_append_eq_append_take]
  have h9 : ("class A:\n".data).length = 9 := rfl
  rw [List.take_of_length_le (by rw [h9]; omega), h9, List.take_replicate]
  norm_num

/-- The last newline inside the truncation window of the big class body
sits at index 8. -/
theorem bigClassFull_rfind :
    PyStr.pyRfind (Examples.bigClassFull.take 4096) '\n' = 8 := by
  rw [bigClassFull_take]
  unfold PyStr.pyRfind
  rw [List.foldl_append]
  have hpre : ("class A:\n".data).foldl
      (fun (p : Int × Int) ch => (p.1 + 1, if ch = '\n' then p.1 else p.2))
      ((0 : Int), (-1 : Int)) = (9, 8) := rfl
  rw [hpre, pyRfind_foldl_not_mem '\n' _ _ (noNl_replicate 4087 'x' (by decide))]

/-- The truncated content the chunker emits for the big class: a hard cut
at 4096 characters (the last newline, at index 8, is not past the window
midpoint 2048), plus the tail. -/
theorem bigClassFull_truncate :
    CodeChunker.truncateContent Examples.bigClassFull 1024 =
      Examples.bigClassFull.take 4096 ++ "\n# ... (truncated)".data := by
  rw [truncateContent_eq,
    if_neg (by rw [bigClassFull_length]; norm_num),
    show (1024 * 4 : Nat) = 4096 by norm_num, bigClassFull_rfind,
    if_neg (by norm_num)]

/-- The spec-worded truncation of the big class: cut at the last newline
inside the window, index 8. -/
theorem bigClassFull_specTruncate :
    CodeChunker.specTruncatedContent Examples.bigClassFull 1024 =
      Examples.bigClassFull.take 8 ++ "\n# ... (truncated)".data := by
  rw [specTruncatedContent_eq, show (1024 * 4 : Nat) = 4096 by norm_num,
    bigClassFull_rfind]
  rfl

/-! ## C6 — class chunk truncation -/

/-- C6 (corrected, counterexample): for a class of 4209 characters whose
only newline sits at index 8 (inside the first half of the 4096-character
window), the chunker emits one truncated chunk — but its content is a hard
cut at 4096 characters plus the tail, not the spec's "class text truncated
at the last newline inside max-tokens × 4 bytes" (which would keep only 8
characters). -/
theorem class_chunk_truncation_counterexample :
    ((CodeChunker.createClassChunks Examples.bigClassMeta
        Examples.bigClassFull 1024).map (fun ch => ch.content)) ≠
      [CodeChunker.specTruncatedContent
        (CodeChunker.classContent Examples.bigClassMeta Examples.bigClassFull)
        1024] ∧
    (CodeChunker.classContent Examples.bigClassMeta
        Examples.bigClassFull).length / 4 > 1024 ∧
    ((CodeChunker.createClassChunks Examples.bigClassMeta
        Examples.bigClassFull 1024).map (fun ch => ch.truncated)) = [true] := by
  have hest : (CodeChunker.classContent Examples.bigClassMeta
      Examples.bigClassFull).length / 4 > 1024 := by
    rw [bigClass_content, bigClassFull_length]
    norm_num
  have hchunks : CodeChunker.createClassChunks Examples.bigClassMeta
      Examples.bigClassFull 1024 =
      [⟨CodeChunker.truncateContent Examples.bigClassFull 1024,
        Examples.bigClassMeta.lineStart, Examples.bigClassMeta.lineEnd,
        Examples.bigClassMeta.name, true⟩] := by
    rw [createClassChunks_eq, if_neg (by omega), bigClass_content]
  refine ⟨?_, hest, by rw [hchunks]; rfl⟩
  rw [hchunks, bigClass_content, bigClassFull_specTruncate]
  simp only [List.map, List.cons.injEq, and_true, ne_eq]
  intro h
  have hlen := congrArg List.length h
  rw [bigClassFull_truncate] at hlen
  simp only [List.length_append, List.length_take, bigClassFull_length] at hlen
  omega

/-- C6 (corrected, amended): a class at or below 1024 estimated tokens
becomes one untruncated chunk with its text unchanged; a larger class
becomes exactly one chunk marked `truncated = true` whose content is the
class text cut at 4096 characters — moved back to the last newline of that
window only when that newline lies past index 2048 — followed by the
`# ... (truncated)` tail. -/
theorem class_chunk_truncation_amended (cls : CodeChunker.ClsMeta)
    (full : Str) :
    ((CodeChunker.classContent cls full).length / 4 ≤ 1024 →
      CodeChunker.createClassChunks cls full 1024 =
        [⟨CodeChunker.classContent cls full, cls.lineStart, cls.lineEnd,
          cls.name, false⟩]) ∧
    ((CodeChunker.classContent cls full).length / 4 > 1024 →
      CodeChunker.createClassChunks cls full 1024 =
        [⟨CodeChunker.truncateContent (CodeChunker.classContent cls full) 1024,
          cls.lineStart, cls.lineEnd, cls.name, true⟩] ∧
      CodeChunker.truncateContent (CodeChunker.classContent cls full) 1024 =
        (if PyStr.pyRfind ((CodeChunker.classContent cls full).take 4096) '\n'
            > 2048 then
          (CodeChunker.classContent cls full).take
            (PyStr.pyRfind ((CodeChunker.classContent cls full).take 4096)
              '\n').toNat
        else (CodeChunker.classContent cls full).take 4096) ++
          "\n# ... (truncated)".data) := by
  constructor
  · intro h
    rw [createClassChunks_eq, if_pos h]
  · intro h
    constructor
    · rw [createClassChunks_eq, if_neg (by omega)]
    · rw [truncateContent_eq, if_neg (by omega),
        show (1024 * 4 : Nat) = 4096 by norm_num,
        show ((4096 : Nat) : Int) / 2 = 2048 by norm_num]

/-- C6 witness: the amended theorem applied to a small one-line class
(untruncated) and to a 4201-character class whose newline sits at index
3000, past the window midpoint (truncated at that newline). -/
theorem class_chunk_truncation_amended_witness :
    ((CodeChunker.classContent Examples.smallClassMeta
        Examples.smallClassFull).length / 4 ≤ 1024 ∧
      CodeChunker.createClassChunks Examples.smallClassMeta
        Examples.smallClassFull 1024 =
        [⟨CodeChunker.classContent Examples.smallClassMeta
            Examples.smallClassFull, 1, 1, some "S", false⟩]) ∧
    ((CodeChunker.classContent Examples.lateNlMeta
        Examples.lateNlFull).length / 4 > 1024 ∧
      CodeChunker.createClassChunks Examples.lateNlMeta
        Examples.lateNlFull 1024 =
        [⟨CodeChunker.truncateContent
            (CodeChunker.classContent Examples.lateNlMeta Examples.lateNlFull)
            1024, 1, 2, some "B", true⟩]) := by
  have hsmall : (CodeChunker.classContent Examples.smallClassMeta
      Examples.smallClassFull).length / 4 ≤ 1024 := by decide
  have hlateContent : CodeChunker.classContent Examples.lateNlMeta
      Examples.lateNlFull = Examples.lateNlFull := by
    unfold CodeChunker.classContent
    have h1 : Examples.lateNlFull =
        List.replicate 3000 'y' ++ '\n' :: List.replicate 1200 'z' := rfl
    rw [h1, splitNl_append_newline _ _ (noNl_replicate 3000 'y' (by decide)),
      splitNl_of_noNl _ (noNl_replicate 1200 'z' (by decide))]
    rfl
  have hlate : (CodeChunker.classContent Examples.lateNlMeta
      Examples.lateNlFull).length / 4 > 1024 := by
    rw [hlateContent]
    have h1 : Examples.lateNlFull.length = 4201 := by
      have h2 : Examples.lateNlFull =
          List.replicate 3000 'y' ++ '\n' :: List.replicate 1200 'z' := rfl
      rw [h2, List.length_append, List.length_cons, List.length_replicate,
        List.length_replicate]
    rw [h1]
    norm_num
  exact ⟨⟨hsmall, (class_chunk_truncation_amended Examples.smallClassMeta
      Examples.smallClassFull).1 hsmall⟩,
    ⟨hlate, ((class_chunk_truncation_amended Examples.lateNlMeta
      Examples.lateNlFull).2 hlate).1⟩⟩
